import Mathlib

/-!
Verification development for the "Anatomy of a Horror Hit" scrollytelling
page (`src/app.js`).  The JavaScript is shallowly embedded: the pure
aggregation pipelines become Lean functions on lists, the scene router and
its shared mutable state become an explicit state-transition function that
also records the calls it makes, and floating-point numbers are modelled by
rationals (reals for the square-root radius scale).  Asynchronous
transitions (crossfades, the lazy CSV load) are modelled as running to
completion before the next scene request, matching the settled states the
spec describes.
-/

/-! ### Fear-category vocabulary (`src/app.js` lines 33-47, 96-115)

`FEAR_CATEGORY_NAMES` is the closed 11-item vocabulary; `FEAR_GROUP_MAP`
maps each canonical label to its supergroup (modelled as an association
list, looked up the way `Map.get` is). -/

def FEAR_CATEGORY_NAMES : List String := [
  "Invasion, Impostors & Paranoia",
  "Persecution & Social Breakdown",
  "Institutional & Structural Control",
  "Possession & Loss of Agency",
  "Captivity & Voyeuristic Sadism",
  "Contagion & Mutation",
  "Body Horror / Envelope Violation",
  "Ecological / Natural Menace",
  "Isolation & Psychological Unraveling",
  "Grief & Familial Trauma",
  "Transgression & Moral Punishment"]

def FEAR_GROUP_MAP : List (String × String) := [
  ("Invasion, Impostors & Paranoia", "Societal & Structural Horrors"),
  ("Persecution & Social Breakdown", "Societal & Structural Horrors"),
  ("Institutional & Structural Control", "Societal & Structural Horrors"),
  ("Captivity & Voyeuristic Sadism", "The Body as Battleground"),
  ("Contagion & Mutation", "The Body as Battleground"),
  ("Body Horror / Envelope Violation", "The Body as Battleground"),
  ("Possession & Loss of Agency", "Psychological & Domestic Horrors"),
  ("Isolation & Psychological Unraveling", "Psychological & Domestic Horrors"),
  ("Grief & Familial Trauma", "Psychological & Domestic Horrors"),
  ("Ecological / Natural Menace", "Cosmic & Moral Reckonings"),
  ("Transgression & Moral Punishment", "Cosmic & Moral Reckonings")]

/-- Membership in `FEAR_SET` (`src/app.js` line 47): `FEAR_SET.has(s)`. -/
def isCanonicalFear (s : String) : Bool := decide (s ∈ FEAR_CATEGORY_NAMES)

/-! ### JavaScript string primitives

The few string methods the pipelines use (`trim`, `split(", ")`,
`replace(/,/g, "")`, `toLowerCase`) are embedded as structurally recursive
functions on the character list of the string, so that they evaluate inside
the kernel on concrete inputs. -/

/-- `String.prototype.trim`: strip leading and trailing whitespace. -/
def trimChars (l : List Char) : List Char :=
  ((l.dropWhile Char.isWhitespace).reverse.dropWhile Char.isWhitespace).reverse

def jsTrim (s : String) : String := String.mk (trimChars s.data)

/-- `String.prototype.toLowerCase` (ASCII case folding suffices here). -/
def jsToLower (s : String) : String := String.mk (s.data.map Char.toLower)

/-- `String(x).replace(/,/g, "")`: drop every comma. -/
def removeCommas (s : String) : String :=
  String.mk (s.data.filter (fun c => decide (c ≠ ',')))

/-- `String.prototype.split(", ")` on the character list: leftmost-first
scan for the two-character separator. -/
def splitCS : List Char → List (List Char)
  | [] => [[]]
  | ',' :: ' ' :: rest => [] :: splitCS rest
  | c :: rest =>
    match splitCS rest with
    | [] => [[c]]
    | t :: ts => (c :: t) :: ts

def jsSplitCommaSpace (s : String) : List String := (splitCS s.data).map String.mk

/-! ### `d3.rollups` (key order and counting)

`d3.rollups(data, v => v.length, key)` groups `data` by `key`, producing one
`[key, count]` pair per distinct key **in first-encounter order**.
`keysInOrder` extracts the distinct keys of a list in first-occurrence
order; `rollupCounts` is the rollup itself. -/

def keysInOrder {κ : Type} [DecidableEq κ] : List κ → List κ
  | [] => []
  | k :: ks => k :: (keysInOrder ks).filter (fun x => decide (x ≠ k))

def rollupCounts {α κ : Type} [DecidableEq κ] (key : α → κ) (l : List α) :
    List (κ × ℕ) :=
  (keysInOrder (l.map key)).map (fun k => (k, l.countP (fun x => decide (key x = k))))

/-! ### JavaScript stable sort

`Array.prototype.sort` is stable (ES2019), and both bar pipelines sort with
the comparator `(a, b) => d3.descending(a.count, b.count)`, i.e. a stable
sort that puts larger counts first and keeps the input order of ties.  A
stable comparator sort is modelled by `List.insertionSort` with the
non-strict relation "a may come before b", here `keyGE key a b`, which is
`key b ≤ key a`. -/

def keyGE {α β : Type} [LinearOrder β] (key : α → β) (a b : α) : Prop :=
  key b ≤ key a

instance {α β : Type} [LinearOrder β] (key : α → β) : DecidableRel (keyGE key) :=
  fun a b => inferInstanceAs (Decidable (key b ≤ key a))

instance {α β : Type} [LinearOrder β] (key : α → β) : IsTotal α (keyGE key) :=
  ⟨fun a b => le_total (key b) (key a)⟩

instance {α β : Type} [LinearOrder β] (key : α → β) : IsTrans α (keyGE key) :=
  ⟨fun _ _ _ hab hbc => le_trans hbc hab⟩

/-! ### The ungrouped fear-bars pipeline (`drawFearBars`, `src/app.js` lines 624-633)

A source row carries a free-text `Fear_Category` field.  The pipeline:
filter rows whose trimmed label is in the canonical vocabulary, roll up
counts by trimmed label (first-encounter key order), then stable-sort by
descending count. -/

structure FearRow where
  Fear_Category : String
deriving DecidableEq

structure FearCount where
  fear : String
  count : ℕ
deriving DecidableEq

/-- `fearRows.filter(d => FEAR_SET.has((d.Fear_Category || "").trim()))`. -/
def filteredFear (rows : List FearRow) : List FearRow :=
  rows.filter (fun d => isCanonicalFear (jsTrim d.Fear_Category))

/-- The rollup `[fear, count]` pairs in first-encounter order, as produced by
`d3.rollups(filtered, v => v.length, d => (d.Fear_Category || "").trim())`
followed by `.map(([fear, count]) => ({fear, count}))`. -/
def fearCountsPre (rows : List FearRow) : List FearCount :=
  (rollupCounts (fun d => jsTrim d.Fear_Category) (filteredFear rows)).map
    (fun p => FearCount.mk p.1 p.2)

/-- The final `counts` array of `drawFearBars`: the rollup stable-sorted by
descending count (`.sort((a, b) => d3.descending(a.count, b.count))`). -/
def fearCounts (rows : List FearRow) : List FearCount :=
  List.insertionSort (keyGE FearCount.count) (fearCountsPre rows)

/-! ### The grouped fear-bars pipeline (`drawFearBarsGrouped`, lines 774-784) -/

structure GroupCount where
  group : String
  count : ℕ
deriving DecidableEq

/-- The rollup key of the grouped pipeline:
`FEAR_GROUP_MAP.get((d.Fear_Category || "").trim()) || "Unmapped"`. -/
def groupKey (d : FearRow) : String :=
  (FEAR_GROUP_MAP.lookup (jsTrim d.Fear_Category)).getD "Unmapped"

/-- The grouped rollup after dropping the `"Unmapped"` bucket
(`.filter(([k]) => k !== "Unmapped")`) and wrapping into records. -/
def groupedCountsPre (rows : List FearRow) : List GroupCount :=
  ((rollupCounts groupKey (filteredFear rows)).filter
      (fun p => decide (p.1 ≠ "Unmapped"))).map
    (fun p => GroupCount.mk p.1 p.2)

/-- The final `groupedCounts` array of `drawFearBarsGrouped`, stable-sorted
by descending count. -/
def groupedCounts (rows : List FearRow) : List GroupCount :=
  List.insertionSort (keyGE GroupCount.count) (groupedCountsPre rows)

/-! ### The genre scatter pipeline (`src/app.js` lines 122-176)

A raw movie row has a comma-separated genre field, a thousands-separated
view count and a decimal rating, all strings.  Rows with an empty (falsy)
field are skipped; the genre string is split on `", "` and each genre is
trimmed, producing one exploded row per (movie, genre) pair.  JavaScript's
numeric coercion (`+s`) is abstracted as a parameter `parseNum : String → ℚ`
— none of the verified properties depend on the numeric values. -/

structure MovieRow where
  OMDb_Genre : String
  Views : String
  OMDb_imdbRating : String
deriving DecidableEq

structure ExplodedRow where
  genre : String
  views : ℚ
  rating : ℚ
deriving DecidableEq

def explodeMovies (parseNum : String → ℚ) (rows : List MovieRow) : List ExplodedRow :=
  rows.flatMap (fun m =>
    if m.OMDb_Genre = "" ∨ m.Views = "" ∨ m.OMDb_imdbRating = "" then []
    else (jsSplitCommaSpace m.OMDb_Genre).map (fun g =>
      ExplodedRow.mk (jsTrim g) (parseNum (removeCommas m.Views))
        (parseNum m.OMDb_imdbRating)))

/-- A per-genre aggregate (`d3.rollup` with count / mean rating / total
views, `src/app.js` lines 144-152). -/
structure Agg where
  genre : String
  avg_imdb : ℚ
  total_views : ℚ
  count : ℕ
deriving DecidableEq

/-- `d3.mean` — the mean of a list of rationals (only applied to nonempty
groups below). -/
def qMean (xs : List ℚ) : ℚ := xs.sum / xs.length

/-- The rolled-up per-genre aggregates, one per distinct genre in
first-encounter order. -/
def rolledGenres (l : List ExplodedRow) : List Agg :=
  (keysInOrder (l.map ExplodedRow.genre)).map (fun g =>
    Agg.mk g (qMean ((l.filter (fun e => decide (e.genre = g))).map ExplodedRow.rating))
      (((l.filter (fun e => decide (e.genre = g))).map ExplodedRow.views)).sum
      (l.filter (fun e => decide (e.genre = g))).length)

/-- `genreData` (`src/app.js` lines 156-157): the aggregates with the rare
genres (count < 5) filtered out. -/
def genreDataOf (parseNum : String → ℚ) (rows : List MovieRow) : List Agg :=
  (rolledGenres (explodeMovies parseNum rows)).filter (fun d => decide (5 ≤ d.count))

/-- The `top10` label list of `drawScatter` (`src/app.js` line 263):
`[...genreData].sort((a, b) => b.total_views - a.total_views).slice(0, 10)`. -/
def top10 (genreData : List Agg) : List Agg :=
  (List.insertionSort (keyGE Agg.total_views) genreData).take 10

/-! ### The radius scale (`src/app.js` lines 174-176)

`d3.scaleSqrt().domain([0, max]).range([5, 50])` sends a count `c` to
`5 + (50 - 5) * (sqrt c - sqrt 0) / (sqrt max - sqrt 0)`. -/

noncomputable def rScale (maxCount c : ℝ) : ℝ :=
  5 + 45 * (Real.sqrt c / Real.sqrt maxCount)

/-! ### Active-card selection (`setActiveByCenter`, `src/app.js` lines 1152-1199)

Each narrative card contributes its bounding rectangle (viewport-relative
top and height); `H` is `window.innerHeight`.  Cards fully above or fully
below the viewport are skipped; among the rest, the card whose vertical
center is closest to the viewport center wins, strict inequality keeping
the first-encountered card on ties. -/

structure CardRect where
  top : ℚ
  height : ℚ
deriving DecidableEq

def CardRect.bot (c : CardRect) : ℚ := c.top + c.height

def CardRect.center (c : CardRect) : ℚ := c.top + c.height / 2

/-- Distance from the card's vertical center to the viewport center
(`Math.abs(center - mid)` with `mid = H / 2`). -/
def distToMid (H : ℚ) (c : CardRect) : ℚ := |c.center - H / 2|

/-- The skip test of the loop body: `r.bottom <= 0 || r.top >= window.innerHeight`. -/
def offscreen (H : ℚ) (c : CardRect) : Prop := c.bot ≤ 0 ∨ H ≤ c.top

instance (H : ℚ) (c : CardRect) : Decidable (offscreen H c) :=
  inferInstanceAs (Decidable (_ ∨ _))

/-- The scan of `steps.forEach(...)`: carry the best card and its distance,
replacing it only on strictly smaller distance. -/
def scanBest (H : ℚ) : List CardRect → Option (CardRect × ℚ) → Option (CardRect × ℚ)
  | [], acc => acc
  | c :: cs, acc =>
    if offscreen H c then scanBest H cs acc
    else
      match acc with
      | none => scanBest H cs (some (c, distToMid H c))
      | some (b, bd) =>
        if distToMid H c < bd then scanBest H cs (some (c, distToMid H c))
        else scanBest H cs (some (b, bd))

/-- The card `setActiveByCenter` selects (the `best` variable after the
loop), given the viewport height and the card rectangles in document
order. -/
def setActiveByCenter (H : ℚ) (steps : List CardRect) : Option CardRect :=
  (scanBest H steps none).map Prod.fst

/-! ### Scene-router state (`src/app.js` lines 27-30 and the DOM surfaces)

The shared mutable visual state: the mode/overlay flags, the title and
subtitle text, the fine-note and methodology-button visibility, the scatter
marks and labels currently on the chart layer (with their `dimmed` class
and zoom-hidden display state), the bar marks, and the quadrant guide
elements of the axes layer (present / faded). -/

inductive Mode
  | none
  | scatter
  | bars
deriving DecidableEq

structure ScatterMark where
  agg : Agg
  dimmed : Bool
  hidden : Bool
deriving DecidableEq

structure BarMark where
  fear : String
  count : ℕ
  dimmed : Bool
deriving DecidableEq

structure SceneState where
  mode : Mode
  quadrantsAdded : Bool
  isHorrorFocused : Bool
  title : String
  subtitle : String
  fineNoteHidden : Bool
  methodologyVisible : Bool
  marks : List ScatterMark
  labels : List ScatterMark
  bars : List BarMark
  guides : Bool
  guidesFaded : Bool
deriving DecidableEq

/-- The page's initial state: `mode = "none"`, no flags, empty chart. -/
def coldState : SceneState :=
  SceneState.mk Mode.none false false "" "" false false [] [] [] false false

/-- One entry per call the router makes while handling a scene; the list of
calls a scene produces is its call trace, in execution order. -/
inductive RouterCall
  | hideBtn
  | showBtn
  | restoreZoom
  | setTitle (t : String)
  | drawScatterCall
  | showNote
  | hideNote
  | addQuadrantsCall
  | focusHorrorCall (flag : Bool)
  | focusQuadrantCall (q : String)
  | zoomCall
  | crossfadeOutCall
  | drawBarsCall
  | crossfadeInCall
  | focusBarsClear
  | focusGroupCall (g : String)
deriving DecidableEq

/-! ### The router's component functions (`src/app.js` lines 209-899) -/

/-- `restoreFromHorrorZoom` (lines 553-606): un-hide and restore every
bubble and label, and restore the quadrant overlay opacity when the guides
were added.  The `dimmed` class is untouched. -/
def restoreFromHorrorZoom (s : SceneState) : SceneState :=
  { s with
    marks := s.marks.map (fun m => { m with hidden := false }),
    labels := s.labels.map (fun m => { m with hidden := false }),
    guidesFaded := if s.quadrantsAdded then false else s.guidesFaded }

/-- `drawScatter` (lines 211-318): show the fine note, set
`mode = "scatter"`, clear all three layers, draw one fresh (undimmed,
visible) bubble per aggregate and one label per top-10 aggregate, and reset
`quadrantsAdded` (the guides live on the cleared axes layer). -/
def drawScatter (G : List Agg) (s : SceneState) : SceneState :=
  { s with
    mode := Mode.scatter,
    fineNoteHidden := false,
    marks := G.map (fun a => ScatterMark.mk a false false),
    labels := (top10 G).map (fun a => ScatterMark.mk a false false),
    bars := [],
    guides := false,
    guidesFaded := false,
    quadrantsAdded := false }

/-- `addQuadrantsIfNeeded` (lines 327-381): idempotent via the
`quadrantsAdded` flag; when it draws, the fresh guides are at full
opacity. -/
def addQuadrantsIfNeeded (s : SceneState) : SceneState :=
  if s.quadrantsAdded then s
  else { s with quadrantsAdded := true, guides := true, guidesFaded := false }

/-- `focusHorror` (lines 388-405): dim (and de-interact) every non-horror
bubble and label, update the flag and the title. -/
def focusHorror (flag : Bool) (s : SceneState) : SceneState :=
  { s with
    isHorrorFocused := flag,
    title := if flag then "Horror in the Hit Matrix" else "The Hit Matrix",
    marks := s.marks.map (fun m =>
      { m with dimmed := flag && decide (jsToLower m.agg.genre ≠ "horror") }),
    labels := s.labels.map (fun m =>
      { m with dimmed := flag && decide (jsToLower m.agg.genre ≠ "horror") }) }

def meanRating (G : List Agg) : ℚ := qMean (G.map Agg.avg_imdb)

def meanViews (G : List Agg) : ℚ := qMean (G.map Agg.total_views)

/-- The `shouldDim` predicate of `focusQuadrant` (lines 420-445). -/
def quadrantShouldDim (G : List Agg) (quadrant : String) (a : Agg) : Bool :=
  if quadrant = "high-views" then
    !(decide (jsToLower a.genre = "comedy" ∨ jsToLower a.genre = "action" ∨
        jsToLower a.genre = "drama"))
  else if quadrant = "critical-darlings" then
    decide (a.avg_imdb ≤ meanRating G ∨ meanViews G ≤ a.total_views)
  else if quadrant = "cult-corner" then
    decide (jsToLower a.genre ≠ "horror")
  else false

/-- `focusQuadrant` (lines 411-455): re-class every bubble and label with
the branch's `shouldDim` predicate (fully superseding any prior dimming). -/
def focusQuadrant (G : List Agg) (q : String) (s : SceneState) : SceneState :=
  { s with
    marks := s.marks.map (fun m => { m with dimmed := quadrantShouldDim G q m.agg }),
    labels := s.labels.map (fun m => { m with dimmed := quadrantShouldDim G q m.agg }) }

/-- `zoomToHorror` (lines 461-547): bail out when no horror aggregate
exists; otherwise hide every non-horror bubble and every label, and fade
the quadrant guides, the legend and the axis labels. -/
def zoomToHorror (G : List Agg) (s : SceneState) : SceneState :=
  match G.find? (fun d => decide (jsToLower d.genre = "horror")) with
  | Option.none => s
  | some _ =>
    { s with
      marks := s.marks.map (fun m =>
        { m with hidden := decide (jsToLower m.agg.genre ≠ "horror") }),
      labels := s.labels.map (fun m => { m with hidden := true }),
      guidesFaded := true }

/-- `drawFearBars` (lines 609-707), run to completion (its lazy CSV load is
modelled by `C10`'s cache model; here the loaded rows are the parameter
`F`): hide the fine note, set `mode = "bars"`, clear all three layers, draw
one fresh bar per sorted fear count, set the bars title and subtitle.  The
`quadrantsAdded` and `isHorrorFocused` flags are *not* touched. -/
def drawFearBars (F : List FearRow) (s : SceneState) : SceneState :=
  { s with
    fineNoteHidden := true,
    mode := Mode.bars,
    marks := [],
    labels := [],
    guides := false,
    guidesFaded := false,
    bars := (fearCounts F).map (fun fc => BarMark.mk fc.fear fc.count false),
    title := "What Are We Afraid of?",
    subtitle := "Horror titles from Netflix’s Most-Watched Movies (Jan–Jun 2025), divided into the main core fears represented in each film." }

/-- `focusBars` (lines 713-728) as the router calls it (`focusBars(null)`,
the clear-dimming case); a no-op outside bars mode. -/
def focusBars (focusCount : Option ℕ) (s : SceneState) : SceneState :=
  if s.mode ≠ Mode.bars then s
  else
    match focusCount with
    | Option.none => { s with bars := s.bars.map (fun b => { b with dimmed := false }) }
    | some n =>
      { s with bars := (s.bars.enum).map (fun p =>
          { p.2 with dimmed := decide (n ≤ p.1) }) }

/-- `focusBarsBySupergroup` (lines 734-755): dim every bar whose fear label
does not map to the given supergroup (an unmapped label compares unequal,
as `undefined !== name` in the source); a no-op outside bars mode. -/
def focusBarsBySupergroup (supergroupName : String) (s : SceneState) : SceneState :=
  if s.mode ≠ Mode.bars then s
  else
    { s with bars := s.bars.map (fun b =>
        { b with dimmed := decide (FEAR_GROUP_MAP.lookup b.fear ≠ some supergroupName) }) }

def showMethodologyBtn (s : SceneState) : SceneState := { s with methodologyVisible := true }

def hideMethodologyBtn (s : SceneState) : SceneState := { s with methodologyVisible := false }

/-! ### The router (`go`, `src/app.js` lines 921-1099)

`go` is embedded as a function from the incoming scene identifier and the
current state to the settled state and the trace of calls made, in source
order.  The asynchronous `crossfadeOut → draw → crossfadeIn` sequence of
the bars branches (and the delayed supergroup focus) is modelled as having
completed before the next scene request, which is the settled behaviour the
spec describes. -/

def recognizedScenes : List String :=
  ["baseline", "quadrants", "high-views", "critical-darlings", "horror",
   "horror-zoom", "bars", "bars_psychological", "bars_body", "bars_societal",
   "bars_cosmic"]

/-- The shared shape of the four `bars_{group}` branches (lines 1039-1092):
show the methodology button; if already in bars mode just apply the group
focus, else crossfade to the 14-category bars and apply the group focus
after the fade settles. -/
def goBarsGroup (F : List FearRow) (g : String) (s : SceneState) :
    SceneState × List RouterCall :=
  let s1 := showMethodologyBtn s
  if s1.mode = Mode.bars then
    (focusBarsBySupergroup g s1, [RouterCall.showBtn, RouterCall.focusGroupCall g])
  else
    (focusBarsBySupergroup g (drawFearBars F s1),
     [RouterCall.showBtn, RouterCall.crossfadeOutCall, RouterCall.drawBarsCall,
      RouterCall.crossfadeInCall, RouterCall.focusGroupCall g])

/-- The scene identifiers the router's if/else chain recognizes, as an
enum; `SceneId.noop` is the trailing else branch. -/
inductive SceneId
  | baseline
  | quadrants
  | highViews
  | criticalDarlings
  | horror
  | horrorZoom
  | barsFlat
  | barsPsychological
  | barsBody
  | barsSocietal
  | barsCosmic
  | noop
deriving DecidableEq

/-- The dispatch of `go`'s if/else chain (lines 924, 946, 962, 978, 993,
1010, 1023, 1039, 1053, 1067, 1081, 1096): the first matching scene string
wins, anything else is the empty trailing else. -/
def sceneOf (scene : String) : SceneId :=
  if scene = "baseline" then SceneId.baseline
  else if scene = "quadrants" then SceneId.quadrants
  else if scene = "high-views" then SceneId.highViews
  else if scene = "critical-darlings" then SceneId.criticalDarlings
  else if scene = "horror" then SceneId.horror
  else if scene = "horror-zoom" then SceneId.horrorZoom
  else if scene = "bars" then SceneId.barsFlat
  else if scene = "bars_psychological" then SceneId.barsPsychological
  else if scene = "bars_body" then SceneId.barsBody
  else if scene = "bars_societal" then SceneId.barsSocietal
  else if scene = "bars_cosmic" then SceneId.barsCosmic
  else SceneId.noop

def go (G : List Agg) (F : List FearRow) (scene : String) (s : SceneState) :
    SceneState × List RouterCall :=
  match sceneOf scene with
  | SceneId.baseline =>
    let s2 := restoreFromHorrorZoom (hideMethodologyBtn s)
    let p3 : SceneState × List RouterCall :=
      if s2.mode ≠ Mode.scatter then
        (drawScatter G { s2 with title := "The Hit Matrix" },
         [RouterCall.setTitle "The Hit Matrix", RouterCall.drawScatterCall])
      else ({ s2 with fineNoteHidden := false }, [RouterCall.showNote])
    let s4 := addQuadrantsIfNeeded p3.1
    let p5 : SceneState × List RouterCall :=
      if s4.isHorrorFocused then (focusHorror false s4, [RouterCall.focusHorrorCall false])
      else (s4, [])
    (focusQuadrant G "none" p5.1,
     [RouterCall.hideBtn, RouterCall.restoreZoom] ++ p3.2 ++
       [RouterCall.addQuadrantsCall] ++ p5.2 ++ [RouterCall.focusQuadrantCall "none"])
  | SceneId.quadrants =>
    let s2 := restoreFromHorrorZoom (hideMethodologyBtn s)
    let p3 : SceneState × List RouterCall :=
      if s2.mode ≠ Mode.scatter then (drawScatter G s2, [RouterCall.drawScatterCall])
      else (s2, [])
    let s4 := addQuadrantsIfNeeded { p3.1 with fineNoteHidden := false }
    let p5 : SceneState × List RouterCall :=
      if s4.isHorrorFocused then (focusHorror false s4, [RouterCall.focusHorrorCall false])
      else (s4, [])
    (focusQuadrant G "none" p5.1,
     [RouterCall.hideBtn, RouterCall.restoreZoom] ++ p3.2 ++
       [RouterCall.showNote, RouterCall.addQuadrantsCall] ++ p5.2 ++
       [RouterCall.focusQuadrantCall "none"])
  | SceneId.highViews =>
    let s2 := restoreFromHorrorZoom (hideMethodologyBtn s)
    let p3 : SceneState × List RouterCall :=
      if s2.mode ≠ Mode.scatter then (drawScatter G s2, [RouterCall.drawScatterCall])
      else (s2, [])
    let s4 := addQuadrantsIfNeeded { p3.1 with fineNoteHidden := false }
    let p5 : SceneState × List RouterCall :=
      if s4.isHorrorFocused then (focusHorror false s4, [RouterCall.focusHorrorCall false])
      else (s4, [])
    (focusQuadrant G "high-views" p5.1,
     [RouterCall.hideBtn, RouterCall.restoreZoom] ++ p3.2 ++
       [RouterCall.showNote, RouterCall.addQuadrantsCall] ++ p5.2 ++
       [RouterCall.focusQuadrantCall "high-views"])
  | SceneId.criticalDarlings =>
    let s2 := restoreFromHorrorZoom (hideMethodologyBtn s)
    let p3 : SceneState × List RouterCall :=
      if s2.mode ≠ Mode.scatter then (drawScatter G s2, [RouterCall.drawScatterCall])
      else (s2, [])
    let s4 := addQuadrantsIfNeeded { p3.1 with fineNoteHidden := false }
    (focusQuadrant G "critical-darlings" s4,
     [RouterCall.hideBtn, RouterCall.restoreZoom] ++ p3.2 ++
       [RouterCall.showNote, RouterCall.addQuadrantsCall,
        RouterCall.focusQuadrantCall "critical-darlings"])
  | SceneId.horror =>
    let s2 := restoreFromHorrorZoom (hideMethodologyBtn s)
    let p3 : SceneState × List RouterCall :=
      if s2.mode ≠ Mode.scatter then (drawScatter G s2, [RouterCall.drawScatterCall])
      else (s2, [])
    let s4 := addQuadrantsIfNeeded { p3.1 with fineNoteHidden := false }
    (focusHorror true (focusQuadrant G "none" s4),
     [RouterCall.hideBtn, RouterCall.restoreZoom] ++ p3.2 ++
       [RouterCall.showNote, RouterCall.addQuadrantsCall,
        RouterCall.focusQuadrantCall "none", RouterCall.focusHorrorCall true])
  | SceneId.horrorZoom =>
    let s1 := hideMethodologyBtn s
    let p2 : SceneState × List RouterCall :=
      if s1.mode ≠ Mode.scatter then
        (addQuadrantsIfNeeded (drawScatter G s1),
         [RouterCall.drawScatterCall, RouterCall.addQuadrantsCall])
      else (s1, [])
    (zoomToHorror G { p2.1 with fineNoteHidden := true },
     [RouterCall.hideBtn] ++ p2.2 ++ [RouterCall.hideNote, RouterCall.zoomCall])
  | SceneId.barsFlat =>
    let s1 := showMethodologyBtn s
    if s1.mode = Mode.bars then
      (focusBars Option.none s1, [RouterCall.showBtn, RouterCall.focusBarsClear])
    else
      (drawFearBars F s1,
       [RouterCall.showBtn, RouterCall.crossfadeOutCall, RouterCall.drawBarsCall,
        RouterCall.crossfadeInCall])
  | SceneId.barsPsychological => goBarsGroup F "Psychological & Domestic Horrors" s
  | SceneId.barsBody => goBarsGroup F "The Body as Battleground" s
  | SceneId.barsSocietal => goBarsGroup F "Societal & Structural Horrors" s
  | SceneId.barsCosmic => goBarsGroup F "Cosmic & Moral Reckonings" s
  | SceneId.noop => (s, [])

/-- Issue a sequence of scene identifiers to the router, each settling
before the next. -/
def runScenes (G : List Agg) (F : List FearRow) (scenes : List String)
    (s : SceneState) : SceneState :=
  scenes.foldl (fun st sc => (go G F sc st).1) s

/-! ### The shared fear-rows cache (`fearRows`, `src/app.js` lines 27-28, 611, 761)

Both bar renderers guard their CSV fetch with the same cache variable:
`if (!fearRows) fearRows = await d3.csv(<file>)`.  The renderers are
modelled at invocation granularity (each runs to completion before the
next, the page's settled single-threaded behaviour); `fetchCSV` stands for
the environment's file contents. -/

inductive BarsRenderer
  | flat
  | grouped
deriving DecidableEq

/-- The CSV file each renderer would fetch: `drawFearBars` the
manually-corrected file, `drawFearBarsGrouped` the base file. -/
def rendererFile : BarsRenderer → String
  | BarsRenderer.flat => "horror_categorized_clean_manualfix.csv"
  | BarsRenderer.grouped => "horror_categorized_clean.csv"

structure LoadState where
  fearRowsCache : Option (List FearRow)
  fetched : List String
deriving DecidableEq

def initialLoadState : LoadState := LoadState.mk Option.none []

/-- The `if (!fearRows) fearRows = await d3.csv(...)` preamble of either
renderer: fetch and fill the cache only when it is empty, and return the
rows the renderer goes on to use. -/
def loadFearRows (fetchCSV : String → List FearRow) (k : BarsRenderer)
    (s : LoadState) : LoadState × List FearRow :=
  match s.fearRowsCache with
  | some rows => (s, rows)
  | Option.none =>
    let rows := fetchCSV (rendererFile k)
    (LoadState.mk (some rows) (s.fetched ++ [rendererFile k]), rows)

/-- Run a sequence of bar-renderer invocations, recording the rows each
invocation used. -/
def runBarsRenderers (fetchCSV : String → List FearRow) :
    List BarsRenderer → LoadState → LoadState × List (List FearRow)
  | [], s => (s, [])
  | k :: ks, s =>
    let p := loadFearRows fetchCSV k s
    let rest := runBarsRenderers fetchCSV ks p.1
    (rest.1, p.2 :: rest.2)

/-!
## Theorems

General lemmas about the embedded operations, followed by the theorems
settling the claims. -/

theorem mem_keysInOrder {κ : Type} [DecidableEq κ] {m : List κ} {x : κ} :
    x ∈ keysInOrder m ↔ x ∈ m := by
  induction m with
  | nil => simp [keysInOrder]
  | cons a t ih =>
    simp only [keysInOrder, List.mem_cons, List.mem_filter, ih, decide_eq_true_eq]
    constructor
    · rintro (rfl | ⟨h, _⟩)
      · exact Or.inl rfl
      · exact Or.inr h
    · rintro (rfl | h)
      · exact Or.inl rfl
      · by_cases hx : x = a
        · exact Or.inl hx
        · exact Or.inr ⟨h, hx⟩

theorem nodup_keysInOrder {κ : Type} [DecidableEq κ] (m : List κ) :
    (keysInOrder m).Nodup := by
  induction m with
  | nil => simp [keysInOrder]
  | cons a t ih =>
    refine List.Nodup.cons ?_ (ih.filter _)
    intro hmem
    have := (List.mem_filter.mp hmem).2
    simp at this

/-- The distinct keys come out in the order of their first occurrences: an
earlier key's first occurrence index is strictly smaller. -/
theorem keysInOrder_pairwise_indexOf {κ : Type} [DecidableEq κ] (m : List κ) :
    (keysInOrder m).Pairwise (fun a b => m.indexOf a < m.indexOf b) := by
  induction m with
  | nil => simp [keysInOrder]
  | cons z t ih =>
    rw [keysInOrder, List.pairwise_cons]
    constructor
    · intro b hb
      have hbne : b ≠ z := by
        have := (List.mem_filter.mp hb).2
        simpa using this
      rw [List.indexOf_cons_self, List.indexOf_cons_ne _ hbne.symm]
      exact Nat.succ_pos _
    · have hfilter := (ih.filter (fun x => decide (x ≠ z)))
      refine hfilter.imp_of_mem ?_
      intro a b ha hb hlt
      have hane : a ≠ z := by simpa using (List.mem_filter.mp ha).2
      have hbne : b ≠ z := by simpa using (List.mem_filter.mp hb).2
      rw [List.indexOf_cons_ne _ hane.symm, List.indexOf_cons_ne _ hbne.symm]
      exact Nat.succ_lt_succ hlt

/-! Summing the rollup counts gives back the length of the input. -/

theorem sum_map_indicator_eq_zero {κ : Type} [DecidableEq κ] {K : List κ} {x : κ}
    (hx : x ∉ K) : (K.map (fun k => if x = k then 1 else 0)).sum = 0 := by
  induction K with
  | nil => simp
  | cons a t ih =>
    have hax : x ≠ a := fun h => hx (h ▸ List.mem_cons_self a t)
    have hxt : x ∉ t := fun h => hx (List.mem_cons_of_mem _ h)
    simp [hax, ih hxt]

theorem sum_map_indicator_eq_one {κ : Type} [DecidableEq κ] {K : List κ} {x : κ}
    (hK : K.Nodup) (hx : x ∈ K) : (K.map (fun k => if x = k then 1 else 0)).sum = 1 := by
  induction K with
  | nil => simp at hx
  | cons a t ih =>
    rcases List.mem_cons.mp hx with rfl | hxt
    · have hxt : x ∉ t := (List.nodup_cons.mp hK).1
      simp [sum_map_indicator_eq_zero hxt]
    · have hax : x ≠ a := by
        rintro rfl; exact (List.nodup_cons.mp hK).1 hxt
      simp only [List.map_cons, List.sum_cons, if_neg hax]
      rw [ih (List.nodup_cons.mp hK).2 hxt]

theorem sum_map_count_cons {κ : Type} [DecidableEq κ] (K : List κ) (x : κ) (t : List κ) :
    (K.map (fun k => (x :: t).count k)).sum =
      (K.map (fun k => t.count k)).sum + (K.map (fun k => if x = k then 1 else 0)).sum := by
  induction K with
  | nil => simp
  | cons a K' ihK =>
    simp only [List.map_cons, List.sum_cons, List.count_cons]
    by_cases hax : x = a <;> simp [hax] <;> omega

theorem sum_map_count_eq_length {κ : Type} [DecidableEq κ] (m : List κ) (K : List κ)
    (hK : K.Nodup) (hcover : ∀ x ∈ m, x ∈ K) :
    (K.map (fun k => m.count k)).sum = m.length := by
  induction m with
  | nil => simp [List.count_nil]
  | cons x t ih =>
    have hcov' : ∀ y ∈ t, y ∈ K := fun y hy => hcover y (List.mem_cons_of_mem _ hy)
    have hx : x ∈ K := hcover x (List.mem_cons_self x t)
    rw [sum_map_count_cons, ih hcov', sum_map_indicator_eq_one hK hx, List.length_cons]

/-- Inserting `x` (an element that precedes every element of `l` in the
unsorted input) keeps the combined order invariant: after insertion, any
pair in order either strictly descends on the key or respects `Q`. -/
theorem pairwise_orderedInsert {α β : Type} [LinearOrder β] (key : α → β)
    (Q : α → α → Prop) (x : α) :
    ∀ l : List α,
      l.Pairwise (fun a b => key b < key a ∨ Q a b) →
      (∀ c ∈ l, Q x c) →
      (List.orderedInsert (keyGE key) x l).Pairwise
        (fun a b => key b < key a ∨ Q a b) := by
  intro l
  induction l with
  | nil => intro _ _; simp [List.orderedInsert]
  | cons h t ih =>
    intro hp hq
    rw [List.orderedInsert]
    by_cases hxh : keyGE key x h
    · rw [if_pos hxh]
      exact List.Pairwise.cons
        (fun c hc => Or.inr (hq c hc)) hp
    · rw [if_neg hxh]
      have hhd := List.pairwise_cons.mp hp
      refine List.Pairwise.cons ?_ (ih hhd.2 (fun c hc => hq c (List.mem_cons_of_mem _ hc)))
      intro c hc
      rcases (List.mem_orderedInsert _).mp hc with rfl | hct
      · left
        exact lt_of_not_le hxh
      · exact hhd.1 c hct

/-- Stability of the modelled JavaScript sort: if the input is pairwise
`Q`-ordered, then any pair in order in the output either strictly descends
on the key or is a `Q`-ordered (tie-preserving) pair from the input. -/
theorem pairwise_insertionSort_stable {α β : Type} [LinearOrder β] (key : α → β)
    (Q : α → α → Prop) :
    ∀ l : List α, l.Pairwise Q →
      (List.insertionSort (keyGE key) l).Pairwise
        (fun a b => key b < key a ∨ Q a b) := by
  intro l
  induction l with
  | nil => intro _; simp [List.insertionSort]
  | cons h t ih =>
    intro hp
    have hhd := List.pairwise_cons.mp hp
    rw [List.insertionSort]
    refine pairwise_orderedInsert key Q h _ (ih hhd.2) ?_
    intro c hc
    exact hhd.1 c ((List.mem_insertionSort _).mp hc)

/-! ### The router claims -/

/-- C9: for every scene identifier outside the recognized set, the router
performs no action (empty call trace) and leaves the whole state — mode,
overlay flags, marks, titles, methodology-button visibility — unchanged,
exactly as it does for `"noop"`. -/
theorem go_unrecognized_is_noop (G : List Agg) (F : List FearRow) (scene : String)
    (s : SceneState) (h : scene ∉ recognizedScenes) :
    go G F scene s = (s, []) ∧ go G F "noop" s = (s, []) := by
  simp only [recognizedScenes, List.mem_cons, List.not_mem_nil, or_false, not_or] at h
  obtain ⟨h1, h2, h3, h4, h5, h6, h7, h8, h9, h10, h11⟩ := h
  refine ⟨?_, ?_⟩
  · simp [go, sceneOf, h1, h2, h3, h4, h5, h6, h7, h8, h9, h10, h11]
  · simp [go, sceneOf]

theorem go_unrecognized_is_noop_witness :
    ("bars_grouped" ∉ recognizedScenes) ∧
      (go [] [] "bars_grouped" coldState = (coldState, []) ∧
        go [] [] "noop" coldState = (coldState, [])) :=
  ⟨by decide, go_unrecognized_is_noop [] [] "bars_grouped" coldState (by decide)⟩


theorem sceneOf_baseline : sceneOf "baseline" = SceneId.baseline := rfl

theorem sceneOf_quadrants : sceneOf "quadrants" = SceneId.quadrants := rfl

theorem sceneOf_highViews : sceneOf "high-views" = SceneId.highViews := rfl

theorem sceneOf_criticalDarlings : sceneOf "critical-darlings" = SceneId.criticalDarlings := rfl

theorem sceneOf_horror : sceneOf "horror" = SceneId.horror := rfl

theorem sceneOf_horrorZoom : sceneOf "horror-zoom" = SceneId.horrorZoom := rfl

theorem sceneOf_bars : sceneOf "bars" = SceneId.barsFlat := rfl

theorem sceneOf_barsPsychological :
    sceneOf "bars_psychological" = SceneId.barsPsychological := rfl

theorem sceneOf_barsBody : sceneOf "bars_body" = SceneId.barsBody := rfl

theorem sceneOf_barsSocietal : sceneOf "bars_societal" = SceneId.barsSocietal := rfl

theorem sceneOf_barsCosmic : sceneOf "bars_cosmic" = SceneId.barsCosmic := rfl

/-- C1 (counterexample): the claim says the `bars` scene, like every
recognized non-noop scene other than the zoom itself, calls
`restoreFromHorrorZoom` before any other scene action; but the router's
`bars` branch (here from a cold start, taking the crossfade-and-draw path)
makes no such call at all. -/
theorem bars_scene_skips_restore :
    RouterCall.restoreZoom ∉ (go [] [] "bars" coldState).2 := by
  decide

/-- C1 (amended): only the five scatter scenes `baseline`, `quadrants`,
`high-views`, `critical-darlings` and `horror` call `restoreFromHorrorZoom`,
each as its very first chart action (only the methodology-button toggle
precedes it); the `horror-zoom` scene *and all five bars scenes* skip the
call entirely. -/
theorem restore_called_exactly_on_scatter_scenes (G : List Agg) (F : List FearRow)
    (s : SceneState) (scene : String) :
    (scene ∈ ["baseline", "quadrants", "high-views", "critical-darlings", "horror"] →
      ∃ rest, (go G F scene s).2 = RouterCall.hideBtn :: RouterCall.restoreZoom :: rest) ∧
    (scene ∈ ["horror-zoom", "bars", "bars_psychological", "bars_body", "bars_societal",
        "bars_cosmic"] →
      RouterCall.restoreZoom ∉ (go G F scene s).2) := by
  constructor
  · intro hmem
    simp only [List.mem_cons, List.not_mem_nil, or_false] at hmem
    rcases hmem with rfl | rfl | rfl | rfl | rfl
    · rw [go, sceneOf_baseline]; exact ⟨_, rfl⟩
    · rw [go, sceneOf_quadrants]; exact ⟨_, rfl⟩
    · rw [go, sceneOf_highViews]; exact ⟨_, rfl⟩
    · rw [go, sceneOf_criticalDarlings]; exact ⟨_, rfl⟩
    · rw [go, sceneOf_horror]; exact ⟨_, rfl⟩
  · intro hmem
    simp only [List.mem_cons, List.not_mem_nil, or_false] at hmem
    rcases hmem with rfl | rfl | rfl | rfl | rfl | rfl
    · rw [go, sceneOf_horrorZoom]
      dsimp only
      split_ifs <;> simp
    · rw [go, sceneOf_bars]
      dsimp only
      split_ifs <;> simp
    · rw [go, sceneOf_barsPsychological]
      dsimp only [goBarsGroup]
      split_ifs <;> simp
    · rw [go, sceneOf_barsBody]
      dsimp only [goBarsGroup]
      split_ifs <;> simp
    · rw [go, sceneOf_barsSocietal]
      dsimp only [goBarsGroup]
      split_ifs <;> simp
    · rw [go, sceneOf_barsCosmic]
      dsimp only [goBarsGroup]
      split_ifs <;> simp

/-- C3 (counterexample): reach a state with both overlay flags set (scenes
`baseline` then `horror` from a cold start), then enter the `bars` scene:
the mode becomes `bars` but neither `quadrantsAdded` nor `isHorrorFocused`
is cleared to `false`. -/
theorem bars_does_not_clear_overlay_flags :
    ((go [] [] "bars" (runScenes [] [] ["baseline", "horror"] coldState)).1.mode
        = Mode.bars) ∧
    ((go [] [] "bars" (runScenes [] [] ["baseline", "horror"] coldState)).1.quadrantsAdded
        = true) ∧
    ((go [] [] "bars" (runScenes [] [] ["baseline", "horror"] coldState)).1.isHorrorFocused
        = true) := by
  decide

/-- C3 (amended): entering any bars scene clears the rendered scatter
overlays themselves — the marks layer is emptied and the quadrant guides
are removed with the cleared axes layer, and the mode becomes `bars` — but
the `quadrantsAdded` and `isHorrorFocused` *flags* are left exactly as they
were; they are only reset later, by the next `drawScatter` or
`focusHorror(false)`. -/
theorem bars_scenes_preserve_overlay_flags (G : List Agg) (F : List FearRow)
    (s : SceneState) (scene : String)
    (hmem : scene ∈ ["bars", "bars_psychological", "bars_body", "bars_societal",
      "bars_cosmic"]) :
    ((go G F scene s).1.quadrantsAdded = s.quadrantsAdded ∧
      (go G F scene s).1.isHorrorFocused = s.isHorrorFocused) ∧
    (s.mode ≠ Mode.bars →
      (go G F scene s).1.mode = Mode.bars ∧ (go G F scene s).1.marks = [] ∧
        (go G F scene s).1.guides = false) := by
  simp only [List.mem_cons, List.not_mem_nil, or_false] at hmem
  rcases hmem with rfl | rfl | rfl | rfl | rfl
  · rw [go, sceneOf_bars]
    dsimp only [showMethodologyBtn, focusBars, drawFearBars]
    split_ifs <;> simp_all
  · rw [go, sceneOf_barsPsychological]
    dsimp only [goBarsGroup, showMethodologyBtn, focusBarsBySupergroup, drawFearBars]
    split_ifs <;> simp_all
  · rw [go, sceneOf_barsBody]
    dsimp only [goBarsGroup, showMethodologyBtn, focusBarsBySupergroup, drawFearBars]
    split_ifs <;> simp_all
  · rw [go, sceneOf_barsSocietal]
    dsimp only [goBarsGroup, showMethodologyBtn, focusBarsBySupergroup, drawFearBars]
    split_ifs <;> simp_all
  · rw [go, sceneOf_barsCosmic]
    dsimp only [goBarsGroup, showMethodologyBtn, focusBarsBySupergroup, drawFearBars]
    split_ifs <;> simp_all

theorem bars_scenes_preserve_overlay_flags_witness :
    ("bars" ∈ ["bars", "bars_psychological", "bars_body", "bars_societal",
        "bars_cosmic"]) ∧
    (((go ([] : List Agg) ([] : List FearRow) "bars" coldState).1.quadrantsAdded
          = coldState.quadrantsAdded ∧
        (go [] [] "bars" coldState).1.isHorrorFocused = coldState.isHorrorFocused) ∧
      (coldState.mode ≠ Mode.bars →
        (go [] [] "bars" coldState).1.mode = Mode.bars ∧
          (go [] [] "bars" coldState).1.marks = [] ∧
          (go [] [] "bars" coldState).1.guides = false)) :=
  ⟨by decide, bars_scenes_preserve_overlay_flags [] [] coldState "bars" (by decide)⟩

/-- Helper for C2: the settled state after issuing `baseline` alone from a
cold start. -/
theorem runScenes_baseline_cold (G : List Agg) (F : List FearRow) :
    runScenes G F ["baseline"] coldState =
      SceneState.mk Mode.scatter true false "The Hit Matrix" "" false false
        (G.map (fun a => ScatterMark.mk a false false))
        ((top10 G).map (fun a => ScatterMark.mk a false false))
        [] true false := by
  simp [runScenes, go, sceneOf_baseline, coldState, hideMethodologyBtn,
    restoreFromHorrorZoom, drawScatter, addQuadrantsIfNeeded, focusHorror,
    focusQuadrant, quadrantShouldDim, List.map_map, Function.comp]

/-- Helper for C2: the settled state after issuing
`baseline, horror, bars, baseline` from a cold start — identical to the
single-`baseline` state except for the (unobserved) subtitle text left
behind by the bars scene. -/
theorem runScenes_roundtrip_cold (G : List Agg) (F : List FearRow) :
    runScenes G F ["baseline", "horror", "bars", "baseline"] coldState =
      SceneState.mk Mode.scatter true false "The Hit Matrix"
        "Horror titles from Netflix’s Most-Watched Movies (Jan–Jun 2025), divided into the main core fears represented in each film."
        false false
        (G.map (fun a => ScatterMark.mk a false false))
        ((top10 G).map (fun a => ScatterMark.mk a false false))
        [] true false := by
  simp [runScenes, go, sceneOf_baseline, sceneOf_horror, sceneOf_bars, coldState,
    hideMethodologyBtn, showMethodologyBtn, restoreFromHorrorZoom, drawScatter,
    drawFearBars, focusBars, addQuadrantsIfNeeded, focusHorror,
    focusQuadrant, quadrantShouldDim, List.map_map, Function.comp]

/-- C2: issuing `[baseline, horror, bars, baseline]` from a cold start ends
in a state observably identical to issuing `[baseline]` alone from a cold
start — same mode, same (undimmed) marks and labels, same visible quadrant
guides, same title — and that common observable state is
`mode = Scatter`, no mark or label dimmed, guides present and not faded,
title `"The Hit Matrix"`. -/
theorem router_convergence (G : List Agg) (F : List FearRow) :
    ((runScenes G F ["baseline", "horror", "bars", "baseline"] coldState).mode =
        (runScenes G F ["baseline"] coldState).mode ∧
      (runScenes G F ["baseline", "horror", "bars", "baseline"] coldState).marks =
        (runScenes G F ["baseline"] coldState).marks ∧
      (runScenes G F ["baseline", "horror", "bars", "baseline"] coldState).labels =
        (runScenes G F ["baseline"] coldState).labels ∧
      (runScenes G F ["baseline", "horror", "bars", "baseline"] coldState).guides =
        (runScenes G F ["baseline"] coldState).guides ∧
      (runScenes G F ["baseline", "horror", "bars", "baseline"] coldState).guidesFaded =
        (runScenes G F ["baseline"] coldState).guidesFaded ∧
      (runScenes G F ["baseline", "horror", "bars", "baseline"] coldState).title =
        (runScenes G F ["baseline"] coldState).title) ∧
    ((runScenes G F ["baseline", "horror", "bars", "baseline"] coldState).mode =
        Mode.scatter ∧
      (∀ m ∈ (runScenes G F ["baseline", "horror", "bars", "baseline"] coldState).marks,
        m.dimmed = false) ∧
      (∀ m ∈ (runScenes G F ["baseline", "horror", "bars", "baseline"] coldState).labels,
        m.dimmed = false) ∧
      (runScenes G F ["baseline", "horror", "bars", "baseline"] coldState).guides = true ∧
      (runScenes G F ["baseline", "horror", "bars", "baseline"] coldState).guidesFaded
          = false ∧
      (runScenes G F ["baseline", "horror", "bars", "baseline"] coldState).title =
        "The Hit Matrix") := by
  rw [runScenes_roundtrip_cold, runScenes_baseline_cold]
  simp

/-! ### The shared fear-rows cache (C10) -/

/-- Helper for C10: once the cache is filled, any further renderer
invocations fetch nothing and reuse the cached rows. -/
theorem runBarsRenderers_cached (fetchCSV : String → List FearRow)
    (rows0 : List FearRow) (fetched0 : List String) :
    ∀ ks : List BarsRenderer,
      runBarsRenderers fetchCSV ks (LoadState.mk (some rows0) fetched0) =
        (LoadState.mk (some rows0) fetched0, ks.map (fun _ => rows0)) := by
  intro ks
  induction ks with
  | nil => rfl
  | cons k ks ih => simp [runBarsRenderers, loadFearRows, ih]

/-- C10: the two bar renderers share the single `fearRows` cache, so over
any session (any sequence of renderer invocations, each run to completion)
at most one CSV file is fetched; with at least one invocation, exactly the
first invocation's file is fetched — `drawFearBars`'s manually-corrected
file or `drawFearBarsGrouped`'s base file — and every invocation, first or
later, uses the rows of that one file. -/
theorem fearRows_cache_single_fetch (fetchCSV : String → List FearRow)
    (k : BarsRenderer) (ks : List BarsRenderer) :
    (runBarsRenderers fetchCSV [] initialLoadState).1.fetched = [] ∧
    (runBarsRenderers fetchCSV (k :: ks) initialLoadState).1.fetched =
      [rendererFile k] ∧
    (runBarsRenderers fetchCSV (k :: ks) initialLoadState).1.fearRowsCache =
      some (fetchCSV (rendererFile k)) ∧
    (runBarsRenderers fetchCSV (k :: ks) initialLoadState).2 =
      (k :: ks).map (fun _ => fetchCSV (rendererFile k)) := by
  refine ⟨rfl, ?_, ?_, ?_⟩ <;>
    simp [runBarsRenderers, loadFearRows, initialLoadState,
      runBarsRenderers_cached]

/-! ### The radius scale (C4) -/

/-- C4 (counterexample): with the encoding of the source —
`d3.scaleSqrt().domain([0, max]).range([5, 50])` — an aggregate with four
times another's count does **not** render at exactly twice the radius:
with counts 20 and 5 (both ≥ 5, so both renderable) under max count 20, the
radii are 50 and 27.5, and 50 ≠ 2 · 27.5. -/
theorem rScale_ratio_not_two : rScale 20 (4 * 5) ≠ 2 * rScale 20 5 := by
  have h4 : Real.sqrt 4 = 2 := by
    rw [show (4 : ℝ) = 2 ^ 2 by norm_num, Real.sqrt_sq (by norm_num : (0 : ℝ) ≤ 2)]
  have h20 : Real.sqrt 20 = 2 * Real.sqrt 5 := by
    rw [show (20 : ℝ) = 4 * 5 by norm_num,
      Real.sqrt_mul (by norm_num : (0 : ℝ) ≤ 4) 5, h4]
  have h5pos : (0 : ℝ) < Real.sqrt 5 := Real.sqrt_pos.mpr (by norm_num)
  unfold rScale
  rw [show (4 * 5 : ℝ) = 20 by norm_num, h20]
  rw [div_self (by positivity : (2 * Real.sqrt 5 : ℝ) ≠ 0)]
  have hhalf : Real.sqrt 5 / (2 * Real.sqrt 5) = 1 / 2 := by
    rw [div_eq_div_iff (by positivity) (by norm_num : (2 : ℝ) ≠ 0)]
    ring
  rw [hhalf]
  norm_num

/-- C4 (amended): the square-root encoding scales the radius *above the
5-pixel range floor*: quadrupling the count exactly doubles
`radius - 5` (for a ratio of exactly 2 the range would have to start at 0,
but the source range is `[5, 50]`). -/
theorem rScale_quadruple_count (maxCount c : ℝ) :
    rScale maxCount (4 * c) - 5 = 2 * (rScale maxCount c - 5) := by
  unfold rScale
  rw [Real.sqrt_mul (by norm_num : (0 : ℝ) ≤ 4) c,
    show Real.sqrt 4 = 2 by
      rw [show (4 : ℝ) = 2 ^ 2 by norm_num, Real.sqrt_sq (by norm_num : (0 : ℝ) ≤ 2)]]
  ring

/-! ### Active-card selection (C5) -/

/-- Helper for C5: the scan invariant with a current best.  The result is
always some card at its own distance, and is either the carried best (then
no later candidate beats it strictly) or a later candidate that is strictly
closer than the carried best and than every candidate before it, and at
least as close as every candidate after it. -/
theorem scanBest_some_spec (H : ℚ) :
    ∀ (cs : List CardRect) (b : CardRect) (bd : ℚ), bd = distToMid H b →
      ∃ c dc, scanBest H cs (some (b, bd)) = some (c, dc) ∧ dc = distToMid H c ∧
        ((c = b ∧ dc = bd ∧ ∀ d ∈ cs, ¬ offscreen H d → bd ≤ distToMid H d) ∨
          (∃ pre post, cs = pre ++ c :: post ∧ ¬ offscreen H c ∧ dc < bd ∧
            (∀ d ∈ pre, ¬ offscreen H d → dc < distToMid H d) ∧
            (∀ d ∈ post, ¬ offscreen H d → dc ≤ distToMid H d))) := by
  intro cs
  induction cs with
  | nil =>
    intro b bd hbd
    exact ⟨b, bd, rfl, hbd, Or.inl ⟨rfl, rfl, by simp⟩⟩
  | cons x cs ih =>
    intro b bd hbd
    rw [scanBest]
    by_cases hx : offscreen H x
    · rw [if_pos hx]
      obtain ⟨c, dc, heq, hdc, hcase⟩ := ih b bd hbd
      refine ⟨c, dc, heq, hdc, ?_⟩
      rcases hcase with ⟨hc, hdb, hall⟩ | ⟨pre, post, hsplit, hoffc, hlt, hpre, hpost⟩
      · refine Or.inl ⟨hc, hdb, ?_⟩
        intro d hd hoff
        rcases List.mem_cons.mp hd with rfl | hd'
        · exact absurd hx hoff
        · exact hall d hd' hoff
      · refine Or.inr ⟨x :: pre, post, by rw [hsplit, List.cons_append], hoffc, hlt, ?_, hpost⟩
        intro d hd hoff
        rcases List.mem_cons.mp hd with rfl | hd'
        · exact absurd hx hoff
        · exact hpre d hd' hoff
    · rw [if_neg hx]
      by_cases hcmp : distToMid H x < bd
      · rw [if_pos hcmp]
        obtain ⟨c, dc, heq, hdc, hcase⟩ := ih x (distToMid H x) rfl
        refine ⟨c, dc, heq, hdc, Or.inr ?_⟩
        rcases hcase with ⟨hc, hdb, hall⟩ | ⟨pre, post, hsplit, hoffc, hlt, hpre, hpost⟩
        · subst hc
          refine ⟨[], cs, by simp, hx, ?_, by simp, ?_⟩
          · rw [hdb]; exact hcmp
          · intro d hd hoff
            rw [hdb]
            exact hall d hd hoff
        · refine ⟨x :: pre, post, by rw [hsplit, List.cons_append], hoffc,
            lt_trans hlt hcmp, ?_, hpost⟩
          intro d hd hoff
          rcases List.mem_cons.mp hd with rfl | hd'
          · exact hlt
          · exact hpre d hd' hoff
      · rw [if_neg hcmp]
        obtain ⟨c, dc, heq, hdc, hcase⟩ := ih b bd hbd
        refine ⟨c, dc, heq, hdc, ?_⟩
        rcases hcase with ⟨hc, hdb, hall⟩ | ⟨pre, post, hsplit, hoffc, hlt, hpre, hpost⟩
        · refine Or.inl ⟨hc, hdb, ?_⟩
          intro d hd hoff
          rcases List.mem_cons.mp hd with rfl | hd'
          · exact not_lt.mp hcmp
          · exact hall d hd' hoff
        · refine Or.inr ⟨x :: pre, post, by rw [hsplit, List.cons_append], hoffc, hlt, ?_, hpost⟩
          intro d hd hoff
          rcases List.mem_cons.mp hd with rfl | hd'
          · exact lt_of_lt_of_le hlt (not_lt.mp hcmp)
          · exact hpre d hd' hoff

/-- Helper for C5: the scan from an empty accumulator either finds no
candidate (every card offscreen) or returns the first closest candidate. -/
theorem scanBest_none_spec (H : ℚ) :
    ∀ cs : List CardRect,
      (scanBest H cs Option.none = Option.none ∧ ∀ d ∈ cs, offscreen H d) ∨
      (∃ c dc, scanBest H cs Option.none = some (c, dc) ∧ dc = distToMid H c ∧
        ∃ pre post, cs = pre ++ c :: post ∧ ¬ offscreen H c ∧
          (∀ d ∈ pre, ¬ offscreen H d → dc < distToMid H d) ∧
          (∀ d ∈ post, ¬ offscreen H d → dc ≤ distToMid H d)) := by
  intro cs
  induction cs with
  | nil => exact Or.inl ⟨rfl, by simp⟩
  | cons x cs ih =>
    rw [scanBest]
    by_cases hx : offscreen H x
    · rw [if_pos hx]
      rcases ih with ⟨heq, hall⟩ | ⟨c, dc, heq, hdc, pre, post, hsplit, hoffc, hpre, hpost⟩
      · refine Or.inl ⟨heq, ?_⟩
        intro d hd
        rcases List.mem_cons.mp hd with rfl | hd'
        · exact hx
        · exact hall d hd'
      · refine Or.inr ⟨c, dc, heq, hdc, x :: pre, post,
          by rw [hsplit, List.cons_append], hoffc, ?_, hpost⟩
        intro d hd hoff
        rcases List.mem_cons.mp hd with rfl | hd'
        · exact absurd hx hoff
        · exact hpre d hd' hoff
    · rw [if_neg hx]
      obtain ⟨c, dc, heq, hdc, hcase⟩ := scanBest_some_spec H cs x (distToMid H x) rfl
      rcases hcase with ⟨hc, hdb, hall⟩ | ⟨pre, post, hsplit, hoffc, hlt, hpre, hpost⟩
      · subst hc
        refine Or.inr ⟨c, dc, heq, hdc, [], cs, by simp, hx, by simp, ?_⟩
        intro d hd hoff
        rw [hdb]
        exact hall d hd hoff
      · refine Or.inr ⟨c, dc, heq, hdc, x :: pre, post,
          by rw [hsplit, List.cons_append], hoffc, ?_, hpost⟩
        intro d hd hoff
        rcases List.mem_cons.mp hd with rfl | hd'
        · exact hlt
        · exact hpre d hd' hoff

/-- C5: when armed, `setActiveByCenter` selects exactly the card whose
vertical center is nearest the viewport's vertical center among the cards
at least partially intersecting the viewport (those not fully above or
below, per the `r.bottom <= 0 || r.top >= innerHeight` skip): the selected
card intersects, is at least as close as every intersecting card, and is
strictly closer than every intersecting card *before* it in document order
— so an exact tie is resolved to the first such card; and nothing is
selected only when no card intersects. -/
theorem setActiveByCenter_spec (H : ℚ) (steps : List CardRect) :
    (setActiveByCenter H steps = Option.none → ∀ d ∈ steps, offscreen H d) ∧
    (∀ c, setActiveByCenter H steps = some c →
      ¬ offscreen H c ∧
      ∃ pre post, steps = pre ++ c :: post ∧
        (∀ d ∈ pre, ¬ offscreen H d → distToMid H c < distToMid H d) ∧
        (∀ d ∈ post, ¬ offscreen H d → distToMid H c ≤ distToMid H d)) := by
  rcases scanBest_none_spec H steps with ⟨heq, hall⟩ |
    ⟨c, dc, heq, hdc, pre, post, hsplit, hoffc, hpre, hpost⟩
  · constructor
    · intro _
      exact hall
    · intro c hc
      rw [setActiveByCenter, heq] at hc
      simp at hc
  · constructor
    · intro hnone
      rw [setActiveByCenter, heq] at hnone
      exact Option.noConfusion hnone
    · intro c' hc'
      rw [setActiveByCenter, heq] at hc'
      have hcc : c = c' := Option.some.inj hc'
      subst hcc
      subst hdc
      exact ⟨hoffc, pre, post, hsplit, hpre, hpost⟩

/-- The spec's scenario for C5: three cards with vertical centers 100, 400
and 900 in a viewport of height 800 (center 400): the middle card is
selected (the third is fully below the viewport and is skipped). -/
theorem setActiveByCenter_scenario :
    setActiveByCenter 800 [CardRect.mk 50 100, CardRect.mk 350 100, CardRect.mk 850 100] =
      some (CardRect.mk 350 100) := by
  norm_num [setActiveByCenter, scanBest, offscreen, distToMid, CardRect.bot,
    CardRect.center]

/-! ### The minimum-count filter (C7) -/

/-- Helper for C7: every aggregate the rollup produces carries its genre's
exploded-membership count. -/
theorem mem_rolledGenres (l : List ExplodedRow) (a : Agg) (ha : a ∈ rolledGenres l) :
    a.count = l.countP (fun e => decide (e.genre = a.genre)) := by
  rw [rolledGenres] at ha
  obtain ⟨g, _, rfl⟩ := List.mem_map.mp ha
  simp only [List.countP_eq_length_filter]

/-- C7: a category whose exploded-membership count is below 5 is excluded
from `genreData` and therefore never appears among the scatter marks'
genres nor among the top-10-by-reach label genres. -/
theorem min_count_filter_excludes (parseNum : String → ℚ) (rows : List MovieRow)
    (g : String)
    (hlt : (explodeMovies parseNum rows).countP (fun e => decide (e.genre = g)) < 5) :
    g ∉ (genreDataOf parseNum rows).map Agg.genre ∧
      g ∉ (top10 (genreDataOf parseNum rows)).map Agg.genre := by
  have hmain : g ∉ (genreDataOf parseNum rows).map Agg.genre := by
    intro hmem
    obtain ⟨a, hamem, rfl⟩ := List.mem_map.mp hmem
    rw [genreDataOf, List.mem_filter] at hamem
    have hcount := mem_rolledGenres _ a hamem.1
    have h5 : 5 ≤ a.count := by simpa using hamem.2
    rw [hcount] at h5
    exact absurd hlt (not_lt.mpr h5)
  refine ⟨hmain, ?_⟩
  intro hmem
  obtain ⟨a, hamem, rfl⟩ := List.mem_map.mp hmem
  have hsorted : a ∈ List.insertionSort (keyGE Agg.total_views) (genreDataOf parseNum rows) :=
    List.mem_of_mem_take hamem
  have : a ∈ genreDataOf parseNum rows := (List.mem_insertionSort _).mp hsorted
  exact hmain (List.mem_map_of_mem Agg.genre this)

theorem min_count_filter_excludes_witness :
    ((explodeMovies (fun _ => 0)
        [MovieRow.mk "Horror, Thriller" "1,000" "7.5",
         MovieRow.mk "Horror" "2,000" "8.0",
         MovieRow.mk "Horror" "2,000" "8.0",
         MovieRow.mk "Horror" "2,000" "8.0",
         MovieRow.mk "Horror" "2,000" "8.0"]).countP
      (fun e => decide (e.genre = "Thriller")) < 5) ∧
    ("Thriller" ∉ (genreDataOf (fun _ => 0)
        [MovieRow.mk "Horror, Thriller" "1,000" "7.5",
         MovieRow.mk "Horror" "2,000" "8.0",
         MovieRow.mk "Horror" "2,000" "8.0",
         MovieRow.mk "Horror" "2,000" "8.0",
         MovieRow.mk "Horror" "2,000" "8.0"]).map Agg.genre ∧
      "Thriller" ∉ (top10 (genreDataOf (fun _ => 0)
        [MovieRow.mk "Horror, Thriller" "1,000" "7.5",
         MovieRow.mk "Horror" "2,000" "8.0",
         MovieRow.mk "Horror" "2,000" "8.0",
         MovieRow.mk "Horror" "2,000" "8.0",
         MovieRow.mk "Horror" "2,000" "8.0"])).map Agg.genre) :=
  ⟨by decide, min_count_filter_excludes (fun _ => 0)
    [MovieRow.mk "Horror, Thriller" "1,000" "7.5",
     MovieRow.mk "Horror" "2,000" "8.0",
     MovieRow.mk "Horror" "2,000" "8.0",
     MovieRow.mk "Horror" "2,000" "8.0",
     MovieRow.mk "Horror" "2,000" "8.0"] "Thriller" (by decide)⟩

/-! ### Grouped total conservation (C8) -/

theorem countP_decide_eq_count {κ : Type} [DecidableEq κ] (m : List κ) (k : κ) :
    m.countP (fun y => decide (y = k)) = m.count k := by
  induction m with
  | nil => simp
  | cons a t ih =>
    by_cases hak : a = k <;> simp [List.countP_cons, List.count_cons, hak, ih]

/-- Helper for C8 (and C6): the rollup's counts sum to the number of rows
rolled up — no row is lost or double-counted by grouping. -/
theorem rollupCounts_sum {α κ : Type} [DecidableEq κ] (key : α → κ) (l : List α) :
    ((rollupCounts key l).map Prod.snd).sum = l.length := by
  rw [rollupCounts, List.map_map]
  have hfun : (Prod.snd ∘ fun k => (k, l.countP (fun x => decide (key x = k)))) =
      fun k => (l.map key).count k := by
    funext k
    simp only [Function.comp]
    rw [← countP_decide_eq_count, List.countP_map]
    rfl
  rw [hfun]
  rw [sum_map_count_eq_length (l.map key) _ (nodup_keysInOrder _)
    (fun x hx => mem_keysInOrder.mpr hx), List.length_map]

/-- Helper for C8: the `FEAR_GROUP_MAP` is total on the canonical
vocabulary — every canonical label maps to a (non-"Unmapped") supergroup. -/
theorem fear_group_map_total :
    ∀ s ∈ FEAR_CATEGORY_NAMES, (FEAR_GROUP_MAP.lookup s).getD "Unmapped" ≠ "Unmapped" := by
  decide

/-- C8: for every input list of fear-labeled rows, the grouped bar counts
and the ungrouped canonical-label counts have the same sum — both equal the
number of canonical rows: every canonical label lands in exactly one
supergroup and none is dropped by the grouping. -/
theorem grouped_total_conservation (rows : List FearRow) :
    ((groupedCounts rows).map GroupCount.count).sum =
      ((fearCounts rows).map FearCount.count).sum ∧
    ((fearCounts rows).map FearCount.count).sum = (filteredFear rows).length := by
  have hungrouped : ((fearCounts rows).map FearCount.count).sum =
      (filteredFear rows).length := by
    rw [fearCounts, ((List.perm_insertionSort _ _).map FearCount.count).sum_eq]
    have : (fearCountsPre rows).map FearCount.count =
        (rollupCounts (fun d => jsTrim d.Fear_Category) (filteredFear rows)).map
          Prod.snd := by
      rw [fearCountsPre, List.map_map]
      rfl
    rw [this, rollupCounts_sum]
  refine ⟨?_, hungrouped⟩
  rw [hungrouped]
  rw [groupedCounts, ((List.perm_insertionSort _ _).map GroupCount.count).sum_eq]
  have hfil : (rollupCounts groupKey (filteredFear rows)).filter
      (fun p => decide (p.1 ≠ "Unmapped")) =
      rollupCounts groupKey (filteredFear rows) := by
    apply List.filter_eq_self.mpr
    intro p hp
    rw [rollupCounts] at hp
    obtain ⟨k, hk, rfl⟩ := List.mem_map.mp hp
    have hk' : k ∈ (filteredFear rows).map groupKey := mem_keysInOrder.mp hk
    obtain ⟨d, hd, rfl⟩ := List.mem_map.mp hk'
    have hcanon : jsTrim d.Fear_Category ∈ FEAR_CATEGORY_NAMES := by
      have := (List.mem_filter.mp hd).2
      simpa [isCanonicalFear] using this
    have := fear_group_map_total _ hcanon
    simpa [groupKey] using this
  have : (groupedCountsPre rows).map GroupCount.count =
      (rollupCounts groupKey (filteredFear rows)).map Prod.snd := by
    rw [groupedCountsPre, hfil, List.map_map]
    rfl
  rw [this, rollupCounts_sum]

/-! ### The ungrouped fear-count pipeline (C6) -/

theorem countP_congr_list {α : Type} (l : List α) (p q : α → Bool)
    (h : ∀ a ∈ l, p a = q a) : l.countP p = l.countP q := by
  induction l with
  | nil => rfl
  | cons a t ih =>
    rw [List.countP_cons, List.countP_cons, h a (List.mem_cons_self a t),
      ih (fun b hb => h b (List.mem_cons_of_mem _ hb))]

theorem map_filter_comm {α β : Type} (f : α → β) (p : β → Bool) (l : List α) :
    (l.filter (fun x => p (f x))).map f = (l.map f).filter p := by
  induction l with
  | nil => rfl
  | cons a t ih =>
    by_cases hpa : p (f a) <;> simp [List.filter_cons, hpa, ih]

/-- Filtering preserves the relative order of first occurrences: if `x`
comes before `y` in the filtered list, it does in the unfiltered one. -/
theorem indexOf_filter_lt {κ : Type} [DecidableEq κ] (p : κ → Bool) :
    ∀ (m : List κ) (x y : κ), p x = true → p y = true →
      (m.filter p).indexOf x < (m.filter p).indexOf y →
      m.indexOf x < m.indexOf y := by
  intro m
  induction m with
  | nil => intro x y _ _ hlt; simp at hlt
  | cons z t ih =>
    intro x y hpx hpy hlt
    by_cases hz : p z
    · rw [List.filter_cons_of_pos hz] at hlt
      by_cases hzx : z = x
      · subst hzx
        have hyz : y ≠ z := by
          intro hyx
          subst hyx
          simp [List.indexOf_cons_self] at hlt
        rw [List.indexOf_cons_self, List.indexOf_cons_ne _ (fun h => hyz h.symm)]
        exact Nat.succ_pos _
      · by_cases hzy : z = y
        · subst hzy
          rw [List.indexOf_cons_self] at hlt
          exact absurd hlt (Nat.not_lt_zero _)
        · rw [List.indexOf_cons_ne _ hzx, List.indexOf_cons_ne _ hzy] at hlt
          rw [List.indexOf_cons_ne _ hzx, List.indexOf_cons_ne _ hzy]
          exact Nat.succ_lt_succ (ih x y hpx hpy (Nat.succ_lt_succ_iff.mp hlt))
    · rw [List.filter_cons_of_neg hz] at hlt
      have hzx : z ≠ x := fun h => hz (h ▸ hpx)
      have hzy : z ≠ y := fun h => hz (h ▸ hpy)
      rw [List.indexOf_cons_ne _ hzx, List.indexOf_cons_ne _ hzy]
      exact Nat.succ_lt_succ (ih x y hpx hpy hlt)

/-- C6: for every input list of fear-labeled rows, `drawFearBars`'s
`counts` list has exactly one entry per canonical label present in the rows
(blank or non-canonical labels are dropped silently), each entry carrying
that label's row count; the list is sorted descending by count, and ties
are broken by the labels' first-occurrence order in the source rows. -/
theorem fearCounts_spec (rows : List FearRow) :
    (∀ l : String,
      l ∈ (fearCounts rows).map FearCount.fear ↔
        l ∈ FEAR_CATEGORY_NAMES ∧ ∃ d ∈ rows, jsTrim d.Fear_Category = l) ∧
    ((fearCounts rows).map FearCount.fear).Nodup ∧
    (∀ fc ∈ fearCounts rows,
      fc.count = rows.countP (fun d => decide (jsTrim d.Fear_Category = fc.fear))) ∧
    (fearCounts rows).Pairwise (fun a b => b.count ≤ a.count) ∧
    (fearCounts rows).Pairwise (fun a b =>
      b.count < a.count ∨
        (rows.map (fun d => jsTrim d.Fear_Category)).indexOf a.fear <
          (rows.map (fun d => jsTrim d.Fear_Category)).indexOf b.fear) := by
  have hmf : (filteredFear rows).map (fun d => jsTrim d.Fear_Category) =
      (rows.map (fun d => jsTrim d.Fear_Category)).filter isCanonicalFear := by
    rw [filteredFear]
    exact map_filter_comm (fun d => jsTrim d.Fear_Category) isCanonicalFear rows
  have hmapfear : (fearCountsPre rows).map FearCount.fear =
      keysInOrder ((filteredFear rows).map (fun d => jsTrim d.Fear_Category)) := by
    rw [fearCountsPre, rollupCounts, List.map_map, List.map_map]
    exact List.map_id _
  have hcanon_of_mem : ∀ k ∈ keysInOrder
      ((filteredFear rows).map (fun d => jsTrim d.Fear_Category)),
      isCanonicalFear k = true := by
    intro k hk
    have := mem_keysInOrder.mp hk
    rw [hmf] at this
    exact (List.mem_filter.mp this).2
  refine ⟨?_, ?_, ?_, ?_, ?_⟩
  · intro l
    have hperm : List.Perm ((fearCounts rows).map FearCount.fear)
        ((fearCountsPre rows).map FearCount.fear) := by
      rw [fearCounts]
      exact (List.perm_insertionSort _ _).map _
    rw [hperm.mem_iff, hmapfear, mem_keysInOrder, hmf, List.mem_filter]
    simp only [List.mem_map, isCanonicalFear, decide_eq_true_eq]
    constructor
    · rintro ⟨⟨d, hd, rfl⟩, hcanon⟩
      exact ⟨hcanon, d, hd, rfl⟩
    · rintro ⟨hcanon, d, hd, rfl⟩
      exact ⟨⟨d, hd, rfl⟩, hcanon⟩
  · have hperm : List.Perm ((fearCounts rows).map FearCount.fear)
        ((fearCountsPre rows).map FearCount.fear) := by
      rw [fearCounts]
      exact (List.perm_insertionSort _ _).map _
    exact hperm.symm.nodup (hmapfear ▸ nodup_keysInOrder _)
  · intro fc hfc
    rw [fearCounts] at hfc
    have hfcpre : fc ∈ fearCountsPre rows := (List.mem_insertionSort _).mp hfc
    rw [fearCountsPre] at hfcpre
    obtain ⟨p, hp, rfl⟩ := List.mem_map.mp hfcpre
    rw [rollupCounts] at hp
    obtain ⟨k, hk, rfl⟩ := List.mem_map.mp hp
    show (filteredFear rows).countP (fun x => decide (jsTrim x.Fear_Category = k)) =
      rows.countP (fun d => decide (jsTrim d.Fear_Category = k))
    rw [filteredFear, List.countP_filter]
    apply countP_congr_list
    intro d _
    by_cases hdk : jsTrim d.Fear_Category = k
    · have hkc := hcanon_of_mem k hk
      simp [hdk, hkc]
    · simp [hdk]
  · rw [fearCounts]
    exact List.sorted_insertionSort (keyGE FearCount.count) _
  · rw [fearCounts]
    apply pairwise_insertionSort_stable FearCount.count
      (fun a b =>
        (rows.map (fun d => jsTrim d.Fear_Category)).indexOf a.fear <
          (rows.map (fun d => jsTrim d.Fear_Category)).indexOf b.fear)
    rw [fearCountsPre, rollupCounts, List.map_map, List.pairwise_map]
    refine (keysInOrder_pairwise_indexOf _).imp_of_mem ?_
    intro a b ha hb hab
    have hpa := hcanon_of_mem a ha
    have hpb := hcanon_of_mem b hb
    rw [hmf] at hab
    exact indexOf_filter_lt isCanonicalFear _ a b hpa hpb hab

/-- The spec's stability example for C6, scaled down: with counts
{A: 2, B: 2, C: 1} and A's first occurrence before B's, the rendered order
is [A, B, C] — descending with the tie broken by input order. -/
theorem fearCounts_stability_example :
    fearCounts
      [FearRow.mk "Grief & Familial Trauma",
       FearRow.mk "Contagion & Mutation",
       FearRow.mk "Grief & Familial Trauma",
       FearRow.mk "Contagion & Mutation",
       FearRow.mk "Possession & Loss of Agency"] =
      [FearCount.mk "Grief & Familial Trauma" 2,
       FearCount.mk "Contagion & Mutation" 2,
       FearCount.mk "Possession & Loss of Agency" 1] := by
  decide
